import Mathlib

/-!
Verification of the citium scheduler (github.com/meomap/citium) against its
specification.  The Go sources are shallowly embedded: the DynamoDB table is a
list of typed records, each storage operation from `scheduler/storage.go` is a
pure function threading that list together with a backend-failure oracle, the
dispatch engine from `scheduler/trigger.go` (`TriggerAPI` / `execute`) is a
sequential fold over the due records that also emits a trace of collaborator
invocations, and `pkg/errors` / `go.uber.org/multierr` error values are an
inductive tree.  Timestamps are whole seconds (`Nat`); the fixed text encoding
`YYYY-MM-DDTHH:MM:SSZ` used by the Go code is order-isomorphic to it, so the
DynamoDB string comparison `EffectiveAfter <= :d` is modelled by `≤` on `Nat`.
-/

namespace Citium

/-- ScheduledRequest mirrors `schema.ScheduledRequest` (schema/request.go):
one scheduled HTTP call.  Field names follow the Go struct; `time.Time`
fields are modelled as whole seconds since the epoch. -/
structure ScheduledRequest where
  ID : String
  CreatedAt : Nat
  ExecutedAt : Nat
  EffectiveAfter : Nat
  Locking : Bool
  FailureReason : String
  Method : String
  URL : String
  Payload : String
  Headers : List (String × String)
  PersistentStore : Bool
  ExecutionResult : String
deriving DecidableEq, Repr

/-- toStr mirrors `ScheduledRequest.ToString`:
`fmt.Sprintf("id=%s effective_after=%s locking=%t", ...)`. -/
def ScheduledRequest.toStr (req : ScheduledRequest) : String :=
  "id=" ++ req.ID ++ " effective_after=" ++ toString req.EffectiveAfter
    ++ " locking=" ++ toString req.Locking

/-- Response mirrors `schema.Response`: the normalized outcome of one HTTP
call — upstream status code and raw body. -/
structure Response where
  Code : Int
  Body : String
deriving DecidableEq, Repr

/-- toStr mirrors `Response.ToString`: `fmt.Sprintf("code=%d body=%s", ...)`. -/
def Response.toStr (resp : Response) : String :=
  "code=" ++ toString resp.Code ++ " body=" ++ resp.Body

/-- GoErr models a Go `error` value as produced by this code base:
`errors.New` / a backend error message (`leaf`), `errors.Wrapf` (`wrap`,
keeping the added context message and the cause), and a
`go.uber.org/multierr` combination (`multi`). -/
inductive GoErr where
  | leaf (msg : String)
  | wrap (msg : String) (cause : GoErr)
  | multi (errs : List GoErr)
deriving Repr

/-- joinSemicolon joins messages with "; ", the separator `multierr` uses in
its combined `Error()` string. -/
def joinSemicolon : List String → String
  | [] => ""
  | [s] => s
  | s :: rest => s ++ "; " ++ joinSemicolon rest

mutual

/-- message gives the `Error()` string of a modelled Go error:
`errors.Wrapf` renders as `"context: cause"`, `multierr` joins the
constituent messages with "; ". -/
def GoErr.message : GoErr → String
  | .leaf msg => msg
  | .wrap msg cause => msg ++ ": " ++ cause.message
  | .multi errs => joinSemicolon (messageList errs)

/-- messageList maps `GoErr.message` over a list of errors. -/
def messageList : List GoErr → List String
  | [] => []
  | e :: rest => e.message :: messageList rest

end

/-- isMulti tests for the `multierr` combination node. -/
def GoErr.isMulti : GoErr → Bool
  | .multi _ => true
  | _ => false

/-- multierrList mirrors `multierr.Errors`: the list of individual errors
inside a possibly-nil, possibly-combined error (nil yields the empty list, a
combination yields its members, any other error yields itself). -/
def multierrList : Option GoErr → List GoErr
  | none => []
  | some (.multi errs) => errs
  | some e => [e]

/-- multierrCombine mirrors `multierr.Combine` / `multierr.Append` on two
arguments: flatten both sides one level; no error gives nil, a single error
is returned as is, several form a combination node. -/
def multierrCombine (a b : Option GoErr) : Option GoErr :=
  match multierrList a ++ multierrList b with
  | [] => none
  | [e] => some e
  | errs => some (.multi errs)

/-- Store models the DynamoDB table of `schema.ScheduledRequest` records. -/
abbrev Store := List ScheduledRequest

/-- duePred is the scan filter expression of `FetchSchedRequests`
(storage.go): `EffectiveAfter <= :d and Locking = :l` with `:d` the current
time and `:l` false. -/
def duePred (current : Nat) (r : ScheduledRequest) : Bool :=
  decide (r.EffectiveAfter ≤ current) && !r.Locking

/-- FetchSchedRequests mirrors `FetchSchedRequests` (storage.go 23-48): scan
the table for records due at `current` and not locked; a backend scan
failure (`scanErr` oracle) is wrapped with the `conn.Scan` context (the
`input.GoString()` dump in the Go format string is elided). -/
def FetchSchedRequests (scanErr : Option String) (store : Store)
    (tableName : String) (current : Nat) : Except GoErr (List ScheduledRequest) :=
  match scanErr with
  | some msg => .error (.wrap ("conn.Scan table_name=" ++ tableName) (.leaf msg))
  | none => .ok (store.filter (duePred current))

/-- lockingUpdate is the per-record effect of the `UpdateItem` expression
`SET Locking = :l` (storage.go `setLocking`): only the `Locking` field of
the record with the matching key changes. -/
def lockingUpdate (reqID : String) (status : Bool) (r : ScheduledRequest) :
    ScheduledRequest :=
  if r.ID = reqID then { r with Locking := status } else r

/-- failureUpdate is the per-record effect of the `UpdateItem` expression
`SET FailureReason = :f` (storage.go `logFailure`). -/
def failureUpdate (reqID failure : String) (r : ScheduledRequest) :
    ScheduledRequest :=
  if r.ID = reqID then { r with FailureReason := failure } else r

/-- resultUpdate is the per-record effect of the `UpdateItem` expression
`SET ExecutionResult = :r, ExecutedAt = :e` (storage.go `updateResult`):
both fields are written in the one update. -/
def resultUpdate (reqID result : String) (current : Nat) (r : ScheduledRequest) :
    ScheduledRequest :=
  if r.ID = reqID then { r with ExecutionResult := result, ExecutedAt := current }
  else r

/-- setLocking mirrors `setLocking` (storage.go 159-179): unconditional
field update of `Locking`; a backend failure (`updateErr` oracle) leaves the
table as is and is wrapped with the `conn.UpdateItem` context. -/
def setLocking (updateErr : Option String) (store : Store)
    (tableName reqID : String) (status : Bool) : Store × Option GoErr :=
  match updateErr with
  | some msg =>
    (store, some (.wrap ("conn.UpdateItem id=" ++ reqID ++ " table_name=" ++ tableName)
      (.leaf msg)))
  | none => (store.map (lockingUpdate reqID status), none)

/-- Lock mirrors `Lock` (storage.go): `setLocking(..., true)`. -/
def Lock (updateErr : Option String) (store : Store) (tableName reqID : String) :
    Store × Option GoErr :=
  setLocking updateErr store tableName reqID true

/-- Unlock mirrors `Unlock` (storage.go): `setLocking(..., false)`. -/
def Unlock (updateErr : Option String) (store : Store) (tableName reqID : String) :
    Store × Option GoErr :=
  setLocking updateErr store tableName reqID false

/-- serializeResponse mirrors `json.Marshal` of a `schema.Response`, e.g.
`\x7b"code":200,"body":"Success"\x7d` (JSON escaping of the body text is
elided; no claim inspects it). -/
def serializeResponse (resp : Response) : String :=
  "\x7b\"code\":" ++ toString resp.Code ++ ",\"body\":\"" ++ resp.Body ++ "\"\x7d"

/-- updateResult mirrors `updateResult` (storage.go 88-115): serialize the
response and run the `UpdateItem` expression
`SET ExecutionResult = :r, ExecutedAt = :e`. -/
def updateResult (updateErr : Option String) (store : Store)
    (tableName reqID : String) (resp : Response) (current : Nat) :
    Store × Option GoErr :=
  let result := serializeResponse resp
  match updateErr with
  | some msg =>
    (store, some (.wrap ("conn.UpdateItem id=" ++ reqID ++ " table_name=" ++ tableName
      ++ " result=" ++ result) (.leaf msg)))
  | none => (store.map (resultUpdate reqID result current), none)

/-- removeRequest mirrors `removeRequest` (storage.go 117-130): `DeleteItem`
by key. -/
def removeRequest (delErr : Option String) (store : Store)
    (tableName reqID : String) : Store × Option GoErr :=
  match delErr with
  | some msg =>
    (store, some (.wrap ("conn.DeleteItem id=" ++ reqID ++ " table_name=" ++ tableName)
      (.leaf msg)))
  | none => (store.filter (fun r => r.ID != reqID), none)

/-- logFailure mirrors `logFailure` (storage.go 132-152): store
`lerr.Error()` via the `UpdateItem` expression `SET FailureReason = :f`. -/
def logFailure (updateErr : Option String) (store : Store)
    (tableName reqID : String) (lerr : GoErr) : Store × Option GoErr :=
  let failure := lerr.message
  match updateErr with
  | some msg =>
    (store, some (.wrap ("conn.UpdateItem id=" ++ reqID ++ " table_name=" ++ tableName
      ++ " failure_reason=" ++ failure) (.leaf msg)))
  | none => (store.map (failureUpdate reqID failure), none)

/-- zeroRequest models the Go zero value `new(schema.ScheduledRequest)`
after `dynamodbattribute.UnmarshalMap` of an empty output: empty strings,
zero times, `false` booleans, empty header map. -/
def zeroRequest : ScheduledRequest :=
  ⟨"", 0, 0, 0, false, "", "", "", "", [], false, ""⟩

/-- Get mirrors `Get` (storage.go 67-86): point lookup by key, wrapping any
backend failure (the `getErr` oracle) with the `conn.GetItem` context.
DynamoDB `GetItem` for a key missing from an existing table returns a
successful output with no item, and `dynamodbattribute.UnmarshalMap` of
that empty output succeeds, leaving the freshly allocated record untouched
— so an absent id yields the zero-valued record with no error. -/
def Get (getErr : Option String) (store : Store) (tableName reqID : String) :
    Except GoErr ScheduledRequest :=
  match getErr with
  | some msg =>
    .error (.wrap ("conn.GetItem table_name=" ++ tableName ++ " id=" ++ reqID)
      (.leaf msg))
  | none =>
    match store.find? (fun r => r.ID == reqID) with
    | some r => .ok r
    | none => .ok zeroRequest

/-- Event records one collaborator invocation made by the dispatch engine on
behalf of a record: the claim write, the Request Executor call, and the
three finalize writes. -/
inductive Event where
  | lockCall (reqID : String) (status : Bool)
  | execCall (reqID : String)
  | logFailureCall (reqID reason : String)
  | updateResultCall (reqID : String)
  | removeCall (reqID : String)
deriving DecidableEq, Repr

/-- ExecEnv is the per-record environment of one `execute` task: the
backend-failure oracles for its four possible store writes and the outcome
of its `client.DoRequest` call. -/
structure ExecEnv where
  lockErr : Option String
  execResult : Except GoErr Response
  updateErr : Option String
  delErr : Option String
  logErr : Option String

/-- execRequest mirrors `execRequest` (http.go 101-108): forward the
record's call description to the Requester and wrap any error with the
`client.DoRequest` context. -/
def execRequest (execResult : Except GoErr Response) (req : ScheduledRequest) :
    Except GoErr Response :=
  match execResult with
  | .error e =>
    .error (.wrap ("client.DoRequest method=" ++ req.Method ++ " url=" ++ req.URL) e)
  | .ok resp => .ok resp

/-- ExecOut is the outcome of one dispatch step: the table afterwards, the
trace of collaborator invocations, and the Go error value returned. -/
structure ExecOut where
  store : Store
  trace : List Event
  err : Option GoErr

/-- execute mirrors `execute` (trigger.go 52-77), the per-record task: claim
via `Lock` (stop with the wrapped error if that write fails), call the
Request Executor, on execution failure log the failure reason best-effort
and return the execution error `multierr.Append`ed with any logging error,
on success either `updateResult` (persistent record) or `removeRequest`
(transient record), wrapping either finalize failure. -/
def execute (env : ExecEnv) (store : Store) (req : ScheduledRequest)
    (table : String) (current : Nat) : ExecOut :=
  let lockRes := Lock env.lockErr store table req.ID
  match lockRes.2 with
  | some e =>
    ⟨lockRes.1, [.lockCall req.ID true],
      some (.wrap ("lock id=" ++ req.ID ++ " table_name=" ++ table) e)⟩
  | none =>
    match execRequest env.execResult req with
    | .error e =>
      let err := GoErr.wrap ("execRequest " ++ req.toStr) e
      let logRes := logFailure env.logErr lockRes.1 table req.ID err
      ⟨logRes.1,
        [.lockCall req.ID true, .execCall req.ID, .logFailureCall req.ID err.message],
        multierrCombine (some err) logRes.2⟩
    | .ok resp =>
      if req.PersistentStore then
        let upRes := updateResult env.updateErr lockRes.1 table req.ID resp current
        ⟨upRes.1, [.lockCall req.ID true, .execCall req.ID, .updateResultCall req.ID],
          match upRes.2 with
          | some e =>
            some (.wrap ("storeResult req[" ++ req.toStr ++ "] resp[" ++ resp.toStr ++ "]") e)
          | none => none⟩
      else
        let delRes := removeRequest env.delErr lockRes.1 table req.ID
        ⟨delRes.1, [.lockCall req.ID true, .execCall req.ID, .removeCall req.ID],
          match delRes.2 with
          | some e => some (.wrap ("removeRequest " ++ req.toStr) e)
          | none => none⟩

/-- executeLabel is the context `TriggerAPI` wraps around a failed task's
error: `errors.Wrapf(gErr, "execute %s table_name=%s", ...)`. -/
def executeLabel (req : ScheduledRequest) (table : String) : String :=
  "execute " ++ req.toStr ++ " table_name=" ++ table

/-- processAll models the fan-out loop of `TriggerAPI` (trigger.go 27-40):
one `execute` task per fetched record, every task run to completion, each
failed task's error wrapped with its record's context and sent to the error
channel.  The concurrent tasks are serialized in list order (each task
touches only its own record's key; the spec requires no ordering). -/
def processAll (envs : Nat → ExecEnv) (table : String) (current : Nat) :
    List ScheduledRequest → Store → Nat → Store × List Event × List GoErr
  | [], store, _ => (store, [], [])
  | req :: rest, store, idx =>
    let out := execute (envs idx) store req table current
    let tailOut := processAll envs table current rest out.store (idx + 1)
    (tailOut.1, out.trace ++ tailOut.2.1,
      match out.err with
      | none => tailOut.2.2
      | some g => .wrap (executeLabel req table) g :: tailOut.2.2)

/-- collectErrs mirrors the fan-in loop of `TriggerAPI` (trigger.go 41-45):
starting from the nil error left by a successful fetch, fold
`multierr.Combine` over the errors drained from the channel. -/
def collectErrs (errs : List GoErr) : Option GoErr :=
  errs.foldl (fun acc g => multierrCombine acc (some g)) none

/-- TriggerAPI mirrors `TriggerAPI` (trigger.go 17-50), one scheduling pass:
fetch the due records (a fetch failure is returned at once, wrapped
`fetchSchedRequests`, with no per-record work), run one task per record,
and combine every per-record error into the aggregate return value. -/
def TriggerAPI (fetchErr : Option String) (envs : Nat → ExecEnv) (store : Store)
    (tableName : String) (current : Nat) : ExecOut :=
  match FetchSchedRequests fetchErr store tableName current with
  | .error e => ⟨store, [], some (.wrap "fetchSchedRequests" e)⟩
  | .ok requests =>
    let out := processAll envs tableName current requests store 0
    ⟨out.1, out.2.1, collectErrs out.2.2⟩

/-- Header models `http.Header` restricted to what the code touches: the
per-key sequences of values, kept as an ordered association list.  Keys are
assumed already in canonical MIME form (every literal in the code is). -/
abbrev Header := List (String × String)

/-- headerAdd mirrors `Header.Add`: append the value to the key's list. -/
def headerAdd (h : Header) (key value : String) : Header :=
  h ++ [(key, value)]

/-- headerSet mirrors `Header.Set`: replace the key's whole value list by
the single given value. -/
def headerSet (h : Header) (key value : String) : Header :=
  h.filter (fun p => p.1 != key) ++ [(key, value)]

/-- headerGet mirrors `Header.Get`: the first value recorded for the key,
which is also the value `net/http` sends for the `User-Agent` line. -/
def headerGet (h : Header) (key : String) : Option String :=
  ((h.filter (fun p => p.1 == key)).head?).map Prod.snd

/-- buildHeaders mirrors the header phase of `DoRequest` (http.go 70-79):
`Add` every caller-provided header, then `Add` the configured user-agent if
any, then `Set` the Authorization bearer header if a token is configured. -/
def buildHeaders (headers : Header) (userAgent token : String) : Header :=
  let h := headers.foldl (fun acc p => headerAdd acc p.1 p.2) []
  let h := if userAgent != "" then headerAdd h "User-Agent" userAgent else h
  if token != "" then headerSet h "Authorization" ("Bearer " ++ token) else h

/-- HTTPEnv is the environment of one `DoRequest` call: oracles for URL
parsing and request construction failures, the transport outcome of `c.Do`
(an upstream status code and raw body on success), and a body-read failure
oracle. -/
structure HTTPEnv where
  parseErr : Option String
  newRequestErr : Option String
  doErr : Option String
  statusCode : Int
  respBody : String
  readErr : Option String

/-- DoRequest mirrors `HTTPClient.DoRequest` (http.go 57-99): parse the URL,
build the request, attach the headers, perform the call and read the body.
Base-URL resolution is elided (the resolved URL string never influences a
claim), so the `http.NewRequest` wrap context carries the raw URL.  When the
transport completes, the response is the exact upstream status code and raw
body, whatever the code — there is no status inspection.  The first result
component is the outgoing header set, when one was built. -/
def DoRequest (env : HTTPEnv) (userAgent token : String) (method urlStr : String)
    (headers : Header) : Option Header × Except GoErr Response :=
  match env.parseErr with
  | some msg => (none, .error (.wrap ("url.Parse rawurl=" ++ urlStr) (.leaf msg)))
  | none =>
    match env.newRequestErr with
    | some msg =>
      (none, .error (.wrap ("http.NewRequest method=" ++ method ++ " url=" ++ urlStr)
        (.leaf msg)))
    | none =>
      let sent := buildHeaders headers userAgent token
      match env.doErr with
      | some msg => (some sent, .error (.wrap "c.Do" (.leaf msg)))
      | none =>
        match env.readErr with
        | some msg => (some sent, .error (.wrap "ioutil.ReadAll resp.Body" (.leaf msg)))
        | none => (some sent, .ok ⟨env.statusCode, env.respBody⟩)

/-- The error component of one `execute` task depends only on the task's
environment and its record, never on the table contents: every store
operation's error is its oracle, and the store only flows into the store
component of the outcome. -/
theorem execute_err_store_irrel (env : ExecEnv) (s s' : Store)
    (req : ScheduledRequest) (table : String) (current : Nat) :
    (execute env s req table current).err = (execute env s' req table current).err := by
  unfold execute Lock setLocking logFailure updateResult removeRequest
  cases env.lockErr <;> cases henv : env.execResult <;> cases env.logErr <;>
    cases env.updateErr <;> cases env.delErr <;>
    by_cases hp : req.PersistentStore <;>
    simp [execRequest, henv, hp]

/-- An error freshly combined in keeps the already-collected list intact and
lands at its end, as long as it is not itself a combination node. -/
theorem multierrList_combine (a : Option GoErr) (e : GoErr)
    (he : e.isMulti = false) :
    multierrList (multierrCombine a (some e)) = multierrList a ++ [e] := by
  have h1 : multierrList (some e) = [e] := by
    cases e <;> simp_all [multierrList, GoErr.isMulti]
  unfold multierrCombine
  rw [h1]
  generalize multierrList a = l
  match l with
  | [] => simpa [multierrList] using h1
  | [x] => simp [multierrList]
  | x :: y :: rest => simp [multierrList]

/-- Auxiliary fold invariant behind `multierrList_collectErrs`. -/
theorem collectErrs_fold_inv (errs : List GoErr) :
    ∀ acc, (∀ e ∈ errs, e.isMulti = false) →
      multierrList (errs.foldl (fun acc g => multierrCombine acc (some g)) acc)
        = multierrList acc ++ errs := by
  induction errs with
  | nil => intro acc _; simp
  | cons e rest ih =>
    intro acc hall
    simp only [List.foldl_cons]
    rw [ih (multierrCombine acc (some e)) (fun x hx => hall x (List.mem_cons_of_mem e hx))]
    rw [multierrList_combine acc e (hall e (List.mem_cons_self e rest))]
    simp

/-- Folding `multierr.Combine` over a list of non-combination errors keeps
exactly that list of individual errors. -/
theorem multierrList_collectErrs (errs : List GoErr)
    (h : ∀ e ∈ errs, e.isMulti = false) :
    multierrList (collectErrs errs) = errs := by
  simpa [collectErrs, multierrList] using collectErrs_fold_inv errs none h

/-- Every error the fan-out loop sends to the channel is a wrapped
per-record error, never a combination node. -/
theorem processAll_errs_nonmulti (envs : Nat → ExecEnv) (table : String)
    (current : Nat) :
    ∀ (l : List ScheduledRequest) (s : Store) (idx : Nat),
      ∀ g ∈ (processAll envs table current l s idx).2.2, g.isMulti = false := by
  intro l
  induction l with
  | nil => intro s idx g hg; simp [processAll] at hg
  | cons req rest ih =>
    intro s idx g hg
    simp only [processAll] at hg
    rcases hout : (execute (envs idx) s req table current).err with _ | g0 <;>
      rw [hout] at hg
    · exact ih _ _ g hg
    · rcases List.mem_cons.mp hg with h | h
      · subst h; rfl
      · exact ih _ _ g h

/-- If the task for the record at position `i` fails (its error value never
depends on the store it starts from), the wrapped per-record error is among
the errors the fan-out loop collects. -/
theorem processAll_err_mem (envs : Nat → ExecEnv) (table : String) (current : Nat) :
    ∀ (l : List ScheduledRequest) (s : Store) (idx : Nat) (i : Nat)
      (hi : i < l.length) (g : GoErr),
      (execute (envs (idx + i)) s (l.get ⟨i, hi⟩) table current).err = some g →
      GoErr.wrap (executeLabel (l.get ⟨i, hi⟩) table) g
        ∈ (processAll envs table current l s idx).2.2 := by
  intro l
  induction l with
  | nil => intro s idx i hi; exact absurd hi (by simp)
  | cons req rest ih =>
    intro s idx i hi g hg
    match i with
    | 0 =>
      simp only [Nat.add_zero] at hg
      simp only [List.get] at hg ⊢
      simp only [processAll, hg]
      exact List.mem_cons_self _ _
    | j + 1 =>
      simp only [List.get] at hg ⊢
      have harith : idx + (j + 1) = (idx + 1) + j := by omega
      rw [harith] at hg
      have hg' : (execute (envs ((idx + 1) + j))
          (execute (envs idx) s req table current).store
          (rest.get ⟨j, by simpa using hi⟩) table current).err = some g := by
        rw [execute_err_store_irrel _ _ s]
        exact hg
      have hmem := ih (execute (envs idx) s req table current).store (idx + 1) j
        (by simpa using hi) g hg'
      simp only [processAll]
      rcases (execute (envs idx) s req table current).err with _ | g0
      · exact hmem
      · exact List.mem_cons_of_mem _ hmem

/-- The fan-out loop collects no error exactly when no task fails (task
errors do not depend on the store they start from, so they are stated
against the pass's initial store). -/
theorem processAll_errs_nil_iff (envs : Nat → ExecEnv) (table : String)
    (current : Nat) :
    ∀ (l : List ScheduledRequest) (s : Store) (idx : Nat),
      (processAll envs table current l s idx).2.2 = []
        ↔ ∀ (i : Nat) (hi : i < l.length),
            (execute (envs (idx + i)) s (l.get ⟨i, hi⟩) table current).err = none := by
  intro l
  induction l with
  | nil =>
    intro s idx
    simp [processAll]
  | cons req rest ih =>
    intro s idx
    constructor
    · intro hnil i hi
      simp only [processAll] at hnil
      rcases hout : (execute (envs idx) s req table current).err with _ | g0 <;>
        rw [hout] at hnil
      · match i with
        | 0 => simpa [List.get] using hout
        | j + 1 =>
          have := (ih (execute (envs idx) s req table current).store (idx + 1)).mp hnil
            j (by simpa using hi)
          have harith : (idx + 1) + j = idx + (j + 1) := by omega
          rw [harith, execute_err_store_irrel _ _ s] at this
          simpa [List.get] using this
      · exact absurd hnil (by simp)
    · intro hall
      simp only [processAll]
      have h0 : (execute (envs idx) s req table current).err = none := by
        simpa [List.get] using hall 0 (by simp)
      rw [h0]
      refine (ih _ (idx + 1)).mpr ?_
      intro j hj
      have harith : (idx + 1) + j = idx + (j + 1) := by omega
      rw [harith, execute_err_store_irrel _ _ s]
      simpa [List.get] using hall (j + 1) (by simpa using hj)

/-- Point lookups commute with a key-preserving record-by-record update. -/
theorem find?_map_eq (f : ScheduledRequest → ScheduledRequest)
    (hID : ∀ r, (f r).ID = r.ID) (l : Store) (reqID : String) :
    (l.map f).find? (fun r => r.ID == reqID)
      = (l.find? (fun r => r.ID == reqID)).map f := by
  induction l with
  | nil => rfl
  | cons a t ih =>
    simp only [List.map_cons, List.find?_cons, hID a]
    rcases hb : (a.ID == reqID) with _ | _ <;> simp [ih]

/-- After deleting a key, a point lookup for it finds nothing. -/
theorem find?_filter_ne (l : Store) (reqID : String) :
    (l.filter (fun r => r.ID != reqID)).find? (fun r => r.ID == reqID) = none := by
  rw [List.find?_eq_none]
  intro x hx
  have := (List.mem_filter.mp hx).2
  simp_all

/-- sampleReq is a concrete transient record, due at time 20, used to
instantiate witnesses. -/
def sampleReq : ScheduledRequest :=
  ⟨"req-1", 0, 0, 10, false, "", "GET", "/ping", "", [], false, ""⟩

/-- sampleReqP is a concrete persistent record, due at time 20, used to
instantiate witnesses. -/
def sampleReqP : ScheduledRequest :=
  ⟨"req-2", 0, 0, 10, false, "", "POST", "/run", "x", [], true, ""⟩

/-- C1: the due-query returns exactly the records with `EffectiveAfter` at
or before `current` and `Locking = false`; a record with a future
`EffectiveAfter` or with `Locking = true` is never in the returned list,
whatever its other attributes. -/
theorem c1_query_due_exact (store : Store) (tableName : String) (current : Nat)
    (r : ScheduledRequest) :
    FetchSchedRequests none store tableName current
        = .ok (store.filter (duePred current))
      ∧ (r ∈ store.filter (duePred current)
          ↔ r ∈ store ∧ r.EffectiveAfter ≤ current ∧ r.Locking = false) := by
  refine ⟨rfl, ?_⟩
  simp [List.mem_filter, duePred, and_assoc]

/-- C9: every store mutation is a field-level partial update: `setLocking`
writes only `Locking`, `logFailure` writes only `FailureReason`, and
`updateResult` writes exactly `ExecutionResult` and `ExecutedAt` together in
its one update expression, each leaving every other field of every record
unchanged. -/
theorem c9_field_level_updates (store : Store) (tableName reqID failure result : String)
    (status : Bool) (current : Nat) (resp : Response) (r : ScheduledRequest) :
    ((setLocking none store tableName reqID status).1
        = store.map (lockingUpdate reqID status)
      ∧ (lockingUpdate reqID status r).ID = r.ID
      ∧ (lockingUpdate reqID status r).CreatedAt = r.CreatedAt
      ∧ (lockingUpdate reqID status r).ExecutedAt = r.ExecutedAt
      ∧ (lockingUpdate reqID status r).EffectiveAfter = r.EffectiveAfter
      ∧ (lockingUpdate reqID status r).FailureReason = r.FailureReason
      ∧ (lockingUpdate reqID status r).Method = r.Method
      ∧ (lockingUpdate reqID status r).URL = r.URL
      ∧ (lockingUpdate reqID status r).Payload = r.Payload
      ∧ (lockingUpdate reqID status r).Headers = r.Headers
      ∧ (lockingUpdate reqID status r).PersistentStore = r.PersistentStore
      ∧ (lockingUpdate reqID status r).ExecutionResult = r.ExecutionResult
      ∧ (lockingUpdate reqID status r).Locking
          = (if r.ID = reqID then status else r.Locking))
    ∧ ((logFailure none store tableName reqID (.leaf failure)).1
        = store.map (failureUpdate reqID failure)
      ∧ (failureUpdate reqID failure r).ID = r.ID
      ∧ (failureUpdate reqID failure r).CreatedAt = r.CreatedAt
      ∧ (failureUpdate reqID failure r).ExecutedAt = r.ExecutedAt
      ∧ (failureUpdate reqID failure r).EffectiveAfter = r.EffectiveAfter
      ∧ (failureUpdate reqID failure r).Locking = r.Locking
      ∧ (failureUpdate reqID failure r).Method = r.Method
      ∧ (failureUpdate reqID failure r).URL = r.URL
      ∧ (failureUpdate reqID failure r).Payload = r.Payload
      ∧ (failureUpdate reqID failure r).Headers = r.Headers
      ∧ (failureUpdate reqID failure r).PersistentStore = r.PersistentStore
      ∧ (failureUpdate reqID failure r).ExecutionResult = r.ExecutionResult
      ∧ (failureUpdate reqID failure r).FailureReason
          = (if r.ID = reqID then failure else r.FailureReason))
    ∧ ((updateResult none store tableName reqID resp current).1
        = store.map (resultUpdate reqID (serializeResponse resp) current)
      ∧ (resultUpdate reqID result current r).ID = r.ID
      ∧ (resultUpdate reqID result current r).CreatedAt = r.CreatedAt
      ∧ (resultUpdate reqID result current r).EffectiveAfter = r.EffectiveAfter
      ∧ (resultUpdate reqID result current r).Locking = r.Locking
      ∧ (resultUpdate reqID result current r).FailureReason = r.FailureReason
      ∧ (resultUpdate reqID result current r).Method = r.Method
      ∧ (resultUpdate reqID result current r).URL = r.URL
      ∧ (resultUpdate reqID result current r).Payload = r.Payload
      ∧ (resultUpdate reqID result current r).Headers = r.Headers
      ∧ (resultUpdate reqID result current r).PersistentStore = r.PersistentStore
      ∧ (resultUpdate reqID result current r).ExecutionResult
          = (if r.ID = reqID then result else r.ExecutionResult)
      ∧ (resultUpdate reqID result current r).ExecutedAt
          = (if r.ID = reqID then current else r.ExecutedAt)) := by
  unfold setLocking logFailure updateResult lockingUpdate failureUpdate resultUpdate
  by_cases h : r.ID = reqID <;> simp [h, GoErr.message]

/-- C2: when the claim write fails for a due record, the task returns the
wrapped claim error at once — the trace holds only the claim attempt, so
the Request Executor is never invoked and no finalize write is attempted,
and the table is whatever the failed write left (here: unchanged) — and in
any pass whose due set holds that record with that environment, the wrapped
claim error is reported in the pass's aggregate. -/
theorem c2_claim_write_failure (msg : String) (execR : Except GoErr Response)
    (uErr dErr lErr : Option String) (store : Store) (req : ScheduledRequest)
    (table : String) (current : Nat) :
    execute ⟨some msg, execR, uErr, dErr, lErr⟩ store req table current
        = ⟨store, [.lockCall req.ID true],
            some (.wrap ("lock id=" ++ req.ID ++ " table_name=" ++ table)
              (.wrap ("conn.UpdateItem id=" ++ req.ID ++ " table_name=" ++ table)
                (.leaf msg)))⟩
      ∧ ∀ (envs : Nat → ExecEnv) (st0 : Store) (i : Nat)
          (hi : i < (st0.filter (duePred current)).length),
          envs i = ⟨some msg, execR, uErr, dErr, lErr⟩ →
          (st0.filter (duePred current)).get ⟨i, hi⟩ = req →
          GoErr.wrap (executeLabel req table)
              (.wrap ("lock id=" ++ req.ID ++ " table_name=" ++ table)
                (.wrap ("conn.UpdateItem id=" ++ req.ID ++ " table_name=" ++ table)
                  (.leaf msg)))
            ∈ multierrList (TriggerAPI none envs st0 table current).err := by
  refine ⟨rfl, ?_⟩
  intro envs st0 i hi henv hreq
  have hnm := processAll_errs_nonmulti envs table current
    (st0.filter (duePred current)) st0 0
  have hmem := processAll_err_mem envs table current
    (st0.filter (duePred current)) st0 0 i hi
    (.wrap ("lock id=" ++ req.ID ++ " table_name=" ++ table)
      (.wrap ("conn.UpdateItem id=" ++ req.ID ++ " table_name=" ++ table)
        (.leaf msg)))
    (by rw [Nat.zero_add, henv, hreq]; rfl)
  rw [hreq] at hmem
  have hTr : (TriggerAPI none envs st0 table current).err
      = collectErrs
          (processAll envs table current (st0.filter (duePred current)) st0 0).2.2 := rfl
  rw [hTr, multierrList_collectErrs _ hnm]
  exact hmem

/-- C2 witness: with one due record whose claim write fails with message
"backend down", the task makes no executor call and no finalize write, and
the pass's aggregate holds the wrapped claim error. -/
theorem c2_claim_write_failure_witness :
    execute ⟨some "backend down", .ok ⟨200, "ok"⟩, none, none, none⟩
        [sampleReq] sampleReq "tbl" 20
      = ⟨[sampleReq], [.lockCall "req-1" true],
          some (.wrap ("lock id=" ++ "req-1" ++ " table_name=" ++ "tbl")
            (.wrap ("conn.UpdateItem id=" ++ "req-1" ++ " table_name=" ++ "tbl")
              (.leaf "backend down")))⟩
    ∧ GoErr.wrap (executeLabel sampleReq "tbl")
          (.wrap ("lock id=" ++ "req-1" ++ " table_name=" ++ "tbl")
            (.wrap ("conn.UpdateItem id=" ++ "req-1" ++ " table_name=" ++ "tbl")
              (.leaf "backend down")))
        ∈ multierrList
            (TriggerAPI none
              (fun _ => ⟨some "backend down", .ok ⟨200, "ok"⟩, none, none, none⟩)
              [sampleReq] "tbl" 20).err :=
  ⟨(c2_claim_write_failure "backend down" (.ok ⟨200, "ok"⟩) none none none
      [sampleReq] sampleReq "tbl" 20).1,
    (c2_claim_write_failure "backend down" (.ok ⟨200, "ok"⟩) none none none
      [sampleReq] sampleReq "tbl" 20).2
      (fun _ => ⟨some "backend down", .ok ⟨200, "ok"⟩, none, none, none⟩)
      [sampleReq] 0 (by decide) rfl rfl⟩

/-- C6: when the due-query itself fails, the pass returns the wrapped store
error at once and performs no per-record work: the trace is empty (no claim
write, no executor call, no finalize write) and the table is untouched. -/
theorem c6_fetch_failure_fatal (msg : String) (envs : Nat → ExecEnv)
    (store : Store) (tableName : String) (current : Nat) :
    TriggerAPI (some msg) envs store tableName current
      = ⟨store, [],
          some (.wrap "fetchSchedRequests"
            (.wrap ("conn.Scan table_name=" ++ tableName) (.leaf msg)))⟩ := rfl

/-- C7 counterexample: a point lookup for an id absent from the table does
not fail — `GetItem` returns a successful empty output, the unmarshal of it
succeeds, and `Get` returns the zero-valued record with no error, so the
claimed not-found failure never happens. -/
theorem c7_counterexample :
    Get none [] "tbl" "missing" = .ok zeroRequest := rfl

/-- C7 (amended): a point lookup for an id absent from the table returns
the zero-valued record with no error (DynamoDB returns a successful empty
output for a missing key of an existing table and the unmarshal succeeds);
a backend failure is propagated as a wrapped store error. -/
theorem c7_get_absent_zero (st : Store) (table reqID msg : String) :
    (st.find? (fun r => r.ID == reqID) = none →
      Get none st table reqID = .ok zeroRequest)
      ∧ Get (some msg) st table reqID
          = .error (.wrap ("conn.GetItem table_name=" ++ table ++ " id=" ++ reqID)
              (.leaf msg)) := by
  constructor
  · intro h
    unfold Get
    rw [h]
  · rfl

/-- C7 witness: looking up "missing" in a one-record table yields the
zero-valued record with no error, and a backend failure reading "req-1"
yields the wrapped store error. -/
theorem c7_get_absent_zero_witness :
    Get none [sampleReq] "tbl" "missing" = .ok zeroRequest
      ∧ Get (some "backend down") [sampleReq] "tbl" "req-1"
          = .error (.wrap ("conn.GetItem table_name=" ++ "tbl" ++ " id=" ++ "req-1")
              (.leaf "backend down")) :=
  ⟨(c7_get_absent_zero [sampleReq] "tbl" "missing" "unused").1 rfl,
    (c7_get_absent_zero [sampleReq] "tbl" "req-1" "backend down").2⟩

/-- execFailureErr is the error value `execute` builds when the Requester
call fails: the cause under the `client.DoRequest` wrap from `execRequest`
under the `execRequest %s` wrap from `execute`; its message is what
`logFailure` stores as the failure reason. -/
def execFailureErr (e : GoErr) (req : ScheduledRequest) : GoErr :=
  .wrap ("execRequest " ++ req.toStr)
    (.wrap ("client.DoRequest method=" ++ req.Method ++ " url=" ++ req.URL) e)

/-- C3: when the claim succeeds and execution fails, `logFailure` is
invoked with the wrapped execution error's text as the reason and that
reason is non-empty; neither `updateResult` nor `removeRequest` is invoked;
the record stays locked (with the failure reason recorded when the write
succeeds); and when the failure-reason write itself also fails, the
returned error is the `multierr` combination holding both errors. -/
theorem c3_execution_failure (e : GoErr) (uErr dErr : Option String) (m : String)
    (store : Store) (req : ScheduledRequest) (table : String) (current : Nat) :
    execute ⟨none, .error e, uErr, dErr, none⟩ store req table current
        = ⟨(store.map (lockingUpdate req.ID true)).map
              (failureUpdate req.ID (execFailureErr e req).message),
            [.lockCall req.ID true, .execCall req.ID,
              .logFailureCall req.ID (execFailureErr e req).message],
            some (execFailureErr e req)⟩
      ∧ (execFailureErr e req).message ≠ ""
      ∧ Event.updateResultCall req.ID
          ∉ (execute ⟨none, .error e, uErr, dErr, none⟩ store req table current).trace
      ∧ Event.removeCall req.ID
          ∉ (execute ⟨none, .error e, uErr, dErr, none⟩ store req table current).trace
      ∧ (∀ r ∈ (execute ⟨none, .error e, uErr, dErr, none⟩ store req table current).store,
          r.ID = req.ID →
            r.Locking = true ∧ r.FailureReason = (execFailureErr e req).message)
      ∧ execute ⟨none, .error e, uErr, dErr, some m⟩ store req table current
          = ⟨store.map (lockingUpdate req.ID true),
              [.lockCall req.ID true, .execCall req.ID,
                .logFailureCall req.ID (execFailureErr e req).message],
              some (.multi [execFailureErr e req,
                .wrap ("conn.UpdateItem id=" ++ req.ID ++ " table_name=" ++ table
                    ++ " failure_reason=" ++ (execFailureErr e req).message)
                  (.leaf m)])⟩
      ∧ multierrList
            (execute ⟨none, .error e, uErr, dErr, some m⟩ store req table current).err
          = [execFailureErr e req,
              .wrap ("conn.UpdateItem id=" ++ req.ID ++ " table_name=" ++ table
                  ++ " failure_reason=" ++ (execFailureErr e req).message)
                (.leaf m)]
      ∧ (∀ r ∈ (execute ⟨none, .error e, uErr, dErr, some m⟩ store req table current).store,
          r.ID = req.ID → r.Locking = true) := by
  refine ⟨rfl, ?_, ?_, ?_, ?_, rfl, rfl, ?_⟩
  · intro hc
    have hlen := congrArg String.length hc
    simp only [execFailureErr, GoErr.message, String.length_append] at hlen
    have h12 : ("execRequest ").length = 12 := rfl
    have hempty : ("" : String).length = 0 := rfl
    rw [h12, hempty] at hlen
    omega
  · simp [execute, Lock, setLocking, execRequest, logFailure]
  · simp [execute, Lock, setLocking, execRequest, logFailure]
  · intro r hr hid
    have hst : (execute ⟨none, .error e, uErr, dErr, none⟩ store req table current).store
        = (store.map (lockingUpdate req.ID true)).map
            (failureUpdate req.ID (execFailureErr e req).message) := rfl
    rw [hst, List.map_map] at hr
    obtain ⟨r0, hr0, rfl⟩ := List.mem_map.mp hr
    by_cases h0 : r0.ID = req.ID
    · constructor <;> simp [Function.comp, lockingUpdate, failureUpdate, h0]
    · exact absurd (by simpa [Function.comp, lockingUpdate, failureUpdate, h0] using hid) h0
  · intro r hr hid
    have hst : (execute ⟨none, .error e, uErr, dErr, some m⟩ store req table current).store
        = store.map (lockingUpdate req.ID true) := rfl
    rw [hst] at hr
    obtain ⟨r0, hr0, rfl⟩ := List.mem_map.mp hr
    by_cases h0 : r0.ID = req.ID
    · simp [lockingUpdate, h0]
    · exact absurd (by simpa [lockingUpdate, h0] using hid) h0

/-- C3 witness: one due record, the call fails with "connection refused":
the stored record is locked with the non-empty failure reason recorded, and
when the reason write also fails with "disk full" both errors appear in the
returned combination. -/
theorem c3_execution_failure_witness :
    (execFailureErr (.leaf "connection refused") sampleReq).message ≠ ""
      ∧ (failureUpdate "req-1"
            (execFailureErr (.leaf "connection refused") sampleReq).message
            (lockingUpdate "req-1" true sampleReq)).Locking = true
      ∧ (failureUpdate "req-1"
            (execFailureErr (.leaf "connection refused") sampleReq).message
            (lockingUpdate "req-1" true sampleReq)).FailureReason
          = (execFailureErr (.leaf "connection refused") sampleReq).message
      ∧ multierrList
            (execute ⟨none, .error (.leaf "connection refused"), none, none, some "disk full"⟩
              [sampleReq] sampleReq "tbl" 20).err
          = [execFailureErr (.leaf "connection refused") sampleReq,
              .wrap ("conn.UpdateItem id=" ++ sampleReq.ID ++ " table_name=" ++ "tbl"
                  ++ " failure_reason="
                  ++ (execFailureErr (.leaf "connection refused") sampleReq).message)
                (.leaf "disk full")] := by
  have h := c3_execution_failure (.leaf "connection refused") none none "disk full"
    [sampleReq] sampleReq "tbl" 20
  refine ⟨h.2.1, ?_, ?_, h.2.2.2.2.2.2.1⟩
  · exact (h.2.2.2.2.1 _ (List.mem_singleton_self _) rfl).1
  · exact (h.2.2.2.2.1 _ (List.mem_singleton_self _) rfl).2

/-- C4: when the claim and the execution both succeed, a persistent record
goes through `updateResult` and never `removeRequest` — afterwards it is
still retrievable, with its `ExecutionResult`/`ExecutedAt` pair set and
`Locking` still true (no automatic unlock) — while a transient record goes
through `removeRequest` and never `updateResult`, and is no longer
retrievable afterwards. -/
theorem c4_success_finalize (resp : Response) (uErr dErr lErr : Option String)
    (store : Store) (req : ScheduledRequest) (table : String) (current : Nat) :
    (req.PersistentStore = true →
      (execute ⟨none, .ok resp, uErr, dErr, lErr⟩ store req table current).trace
          = [.lockCall req.ID true, .execCall req.ID, .updateResultCall req.ID]
      ∧ Event.removeCall req.ID
          ∉ (execute ⟨none, .ok resp, uErr, dErr, lErr⟩ store req table current).trace
      ∧ (∀ r0, store.find? (fun r => r.ID == req.ID) = some r0 →
          (execute ⟨none, .ok resp, none, dErr, lErr⟩ store req table current).store.find?
              (fun r => r.ID == req.ID)
            = some (resultUpdate req.ID (serializeResponse resp) current
                (lockingUpdate req.ID true r0))
          ∧ (resultUpdate req.ID (serializeResponse resp) current
                (lockingUpdate req.ID true r0)).ExecutionResult = serializeResponse resp
          ∧ (resultUpdate req.ID (serializeResponse resp) current
                (lockingUpdate req.ID true r0)).ExecutedAt = current
          ∧ (resultUpdate req.ID (serializeResponse resp) current
                (lockingUpdate req.ID true r0)).Locking = true))
    ∧ (req.PersistentStore = false →
      (execute ⟨none, .ok resp, uErr, dErr, lErr⟩ store req table current).trace
          = [.lockCall req.ID true, .execCall req.ID, .removeCall req.ID]
      ∧ Event.updateResultCall req.ID
          ∉ (execute ⟨none, .ok resp, uErr, dErr, lErr⟩ store req table current).trace
      ∧ (execute ⟨none, .ok resp, uErr, none, lErr⟩ store req table current).store.find?
            (fun r => r.ID == req.ID) = none) := by
  have hID1 : ∀ r : ScheduledRequest, (lockingUpdate req.ID true r).ID = r.ID := by
    intro r; unfold lockingUpdate; split <;> rfl
  have hID2 : ∀ r : ScheduledRequest,
      (resultUpdate req.ID (serializeResponse resp) current r).ID = r.ID := by
    intro r; unfold resultUpdate; split <;> rfl
  constructor
  · intro hp
    refine ⟨?_, ?_, ?_⟩
    · simp [execute, Lock, setLocking, execRequest, hp]
    · simp [execute, Lock, setLocking, execRequest, hp]
    · intro r0 hr0
      have hst : (execute ⟨none, .ok resp, none, dErr, lErr⟩ store req table current).store
          = (store.map (lockingUpdate req.ID true)).map
              (resultUpdate req.ID (serializeResponse resp) current) := by
        simp [execute, Lock, setLocking, execRequest, hp, updateResult]
      rw [hst, find?_map_eq _ hID2, find?_map_eq _ hID1, hr0]
      have hid : r0.ID = req.ID := by
        have := List.find?_some hr0
        simpa using this
      refine ⟨rfl, ?_, ?_, ?_⟩ <;>
        unfold resultUpdate lockingUpdate <;> simp [hid]
  · intro hp
    refine ⟨?_, ?_, ?_⟩
    · simp [execute, Lock, setLocking, execRequest, hp]
    · simp [execute, Lock, setLocking, execRequest, hp]
    · have hst : (execute ⟨none, .ok resp, uErr, none, lErr⟩ store req table current).store
          = (store.map (lockingUpdate req.ID true)).filter (fun r => r.ID != req.ID) := by
        simp [execute, Lock, setLocking, execRequest, hp, removeRequest]
      rw [hst, find?_filter_ne]

/-- C4 witness: a persistent record stays retrievable with its result pair
set and still locked; a transient record is gone afterwards. -/
theorem c4_success_finalize_witness :
    (execute ⟨none, .ok ⟨200, "ok"⟩, none, none, none⟩ [sampleReqP] sampleReqP "tbl" 20).store.find?
        (fun r => r.ID == sampleReqP.ID)
      = some (resultUpdate sampleReqP.ID (serializeResponse ⟨200, "ok"⟩) 20
          (lockingUpdate sampleReqP.ID true sampleReqP))
    ∧ (resultUpdate sampleReqP.ID (serializeResponse ⟨200, "ok"⟩) 20
          (lockingUpdate sampleReqP.ID true sampleReqP)).ExecutionResult
        = serializeResponse ⟨200, "ok"⟩
    ∧ (resultUpdate sampleReqP.ID (serializeResponse ⟨200, "ok"⟩) 20
          (lockingUpdate sampleReqP.ID true sampleReqP)).Locking = true
    ∧ (execute ⟨none, .ok ⟨200, "ok"⟩, none, none, none⟩ [sampleReq] sampleReq "tbl" 20).store.find?
        (fun r => r.ID == sampleReq.ID) = none := by
  have hp := (c4_success_finalize ⟨200, "ok"⟩ none none none [sampleReqP] sampleReqP
    "tbl" 20).1 rfl
  have ht := (c4_success_finalize ⟨200, "ok"⟩ none none none [sampleReq] sampleReq
    "tbl" 20).2 rfl
  have hfind := hp.2.2 sampleReqP rfl
  exact ⟨hfind.1, hfind.2.1, hfind.2.2.2, ht.2.2⟩

/-- C5: when the due-query succeeds, the pass's aggregate is nil exactly
when no record's task failed (task errors do not depend on the store a task
starts from, so they are stated against the pass's initial table); an empty
due set gives nil; and each failed record's wrapped error is recoverable
from the aggregate's error list. -/
theorem c5_aggregate_iff (envs : Nat → ExecEnv) (st : Store) (table : String)
    (current : Nat) :
    ((TriggerAPI none envs st table current).err = none
        ↔ ∀ (i : Nat) (hi : i < (st.filter (duePred current)).length),
            (execute (envs i) st ((st.filter (duePred current)).get ⟨i, hi⟩)
              table current).err = none)
      ∧ (st.filter (duePred current) = [] →
          (TriggerAPI none envs st table current).err = none)
      ∧ (∀ (i : Nat) (hi : i < (st.filter (duePred current)).length) (g : GoErr),
          (execute (envs i) st ((st.filter (duePred current)).get ⟨i, hi⟩)
            table current).err = some g →
          GoErr.wrap (executeLabel ((st.filter (duePred current)).get ⟨i, hi⟩) table) g
            ∈ multierrList (TriggerAPI none envs st table current).err) := by
  have hTr : (TriggerAPI none envs st table current).err
      = collectErrs
          (processAll envs table current (st.filter (duePred current)) st 0).2.2 := rfl
  have hnm := processAll_errs_nonmulti envs table current
    (st.filter (duePred current)) st 0
  have hlist := multierrList_collectErrs _ hnm
  refine ⟨?_, ?_, ?_⟩
  · rw [hTr]
    constructor
    · intro hnone
      have hnil : (processAll envs table current (st.filter (duePred current)) st 0).2.2
          = [] := by
        rw [← hlist, hnone]
        rfl
      have := (processAll_errs_nil_iff envs table current
        (st.filter (duePred current)) st 0).mp hnil
      intro i hi
      simpa using this i hi
    · intro hall
      have hnil := (processAll_errs_nil_iff envs table current
        (st.filter (duePred current)) st 0).mpr (by intro i hi; simpa using hall i hi)
      rw [hnil]
      rfl
  · intro hempty
    rw [hTr, hempty]
    rfl
  · intro i hi g hg
    rw [hTr, hlist]
    exact processAll_err_mem envs table current (st.filter (duePred current)) st 0 i hi g
      (by simpa using hg)

/-- C5 witness: with one due record and an all-success environment the pass
returns nil; with the claim write failing the wrapped per-record error is
recoverable from the aggregate. -/
theorem c5_aggregate_iff_witness :
    (TriggerAPI none (fun _ => ⟨none, .ok ⟨200, "ok"⟩, none, none, none⟩)
        [sampleReq] "tbl" 20).err = none
      ∧ GoErr.wrap (executeLabel sampleReq "tbl")
            (.wrap ("lock id=" ++ "req-1" ++ " table_name=" ++ "tbl")
              (.wrap ("conn.UpdateItem id=" ++ "req-1" ++ " table_name=" ++ "tbl")
                (.leaf "oops")))
          ∈ multierrList
              (TriggerAPI none (fun _ => ⟨some "oops", .ok ⟨200, "ok"⟩, none, none, none⟩)
                [sampleReq] "tbl" 20).err := by
  constructor
  · exact (c5_aggregate_iff (fun _ => ⟨none, .ok ⟨200, "ok"⟩, none, none, none⟩)
      [sampleReq] "tbl" 20).1.mpr
      (by
        intro i hi
        have h0 : i = 0 := Nat.lt_one_iff.mp hi
        subst h0
        rfl)
  · exact (c5_aggregate_iff (fun _ => ⟨some "oops", .ok ⟨200, "ok"⟩, none, none, none⟩)
      [sampleReq] "tbl" 20).2.2 0 (by decide) _ rfl

/-- Folding `Header.Add` over the caller's headers appends them in order. -/
theorem foldl_headerAdd (l : Header) : ∀ acc : Header,
    l.foldl (fun acc p => headerAdd acc p.1 p.2) acc = acc ++ l := by
  induction l with
  | nil => intro acc; simp
  | cons p rest ih =>
    intro acc
    rw [List.foldl_cons, ih]
    simp [headerAdd]

/-- Get after Set on the same key yields the set value. -/
theorem headerGet_headerSet (h : Header) (k v : String) :
    headerGet (headerSet h k v) k = some v := by
  unfold headerGet headerSet
  rw [List.filter_append]
  have hnil : (h.filter (fun p => p.1 != k)).filter (fun p => p.1 == k) = [] := by
    rw [List.filter_eq_nil_iff]
    intro a ha
    have := (List.mem_filter.mp ha).2
    simp_all
  rw [hnil]
  simp

/-- Set on one key does not change what Get returns for another key. -/
theorem headerGet_headerSet_ne (h : Header) (k k' v : String) (hne : k ≠ k') :
    headerGet (headerSet h k' v) k = headerGet h k := by
  unfold headerGet headerSet
  rw [List.filter_append, List.filter_filter]
  have hfe : h.filter (fun p => (p.1 == k) && (p.1 != k'))
      = h.filter (fun p => p.1 == k) := by
    apply List.filter_congr
    intro a _
    by_cases hak : a.1 = k
    · simp [hak, hne]
    · simp [hak]
  have hone : List.filter (fun p => p.1 == k) [(k', v)] = [] := by
    simp [Ne.symm hne]
  rw [hfe, hone]
  simp

end Citium

namespace Citium

/-- C8 counterexample: with a caller-provided `User-Agent` header and a
configured user-agent, the configured value does not win: the outgoing
header's effective `User-Agent` value — the first one, which is what
`net/http` sends, since `Header.Add` appends rather than replaces — is the
caller's, not the configured one. -/
theorem c8_counterexample :
    headerGet (buildHeaders [("User-Agent", "caller-agent")] "config-agent" "")
        "User-Agent" = some "caller-agent"
      ∧ headerGet (buildHeaders [("User-Agent", "caller-agent")] "config-agent" "")
          "User-Agent" ≠ some "config-agent"
      ∧ buildHeaders [("User-Agent", "caller-agent")] "config-agent" ""
          = [("User-Agent", "caller-agent"), ("User-Agent", "config-agent")] := by
  refine ⟨rfl, ?_, rfl⟩
  decide

/-- C8 (amended): caller-provided headers are all attached, except that a
caller `Authorization` header is replaced when a bearer token is configured
(`Header.Set`); a configured bearer token wins over any caller
`Authorization` value; a configured user-agent is added as an extra value
after the caller's headers, so it is the effective `User-Agent` only when
the caller provides none. -/
theorem c8_headers_amended (caller : Header) (userAgent token : String) :
    (∀ p ∈ caller, (token = "" ∨ p.1 ≠ "Authorization") →
        p ∈ buildHeaders caller userAgent token)
      ∧ (token ≠ "" →
          headerGet (buildHeaders caller userAgent token) "Authorization"
            = some ("Bearer " ++ token))
      ∧ (userAgent ≠ "" →
          ("User-Agent", userAgent) ∈ buildHeaders caller userAgent token)
      ∧ (userAgent ≠ "" → headerGet caller "User-Agent" = none →
          headerGet (buildHeaders caller userAgent token) "User-Agent"
            = some userAgent) := by
  refine ⟨?_, ?_, ?_, ?_⟩
  · intro p hp hcond
    by_cases hua : userAgent = "" <;> by_cases htok : token = ""
    · have hBH : buildHeaders caller userAgent token = caller := by
        simp [buildHeaders, foldl_headerAdd, hua, htok]
      rw [hBH]
      exact hp
    · have hBH : buildHeaders caller userAgent token
          = headerSet caller "Authorization" ("Bearer " ++ token) := by
        simp [buildHeaders, foldl_headerAdd, hua, htok]
      rw [hBH]
      have hpa : p.1 ≠ "Authorization" := hcond.resolve_left htok
      exact List.mem_append_left _ (List.mem_filter.mpr ⟨hp, by simp [hpa]⟩)
    · have hBH : buildHeaders caller userAgent token
          = headerAdd caller "User-Agent" userAgent := by
        simp [buildHeaders, foldl_headerAdd, hua, htok]
      rw [hBH]
      exact List.mem_append_left _ hp
    · have hBH : buildHeaders caller userAgent token
          = headerSet (headerAdd caller "User-Agent" userAgent)
              "Authorization" ("Bearer " ++ token) := by
        simp [buildHeaders, foldl_headerAdd, hua, htok]
      rw [hBH]
      have hpa : p.1 ≠ "Authorization" := hcond.resolve_left htok
      exact List.mem_append_left _
        (List.mem_filter.mpr ⟨List.mem_append_left _ hp, by simp [hpa]⟩)
  · intro htok
    by_cases hua : userAgent = ""
    · have hBH : buildHeaders caller userAgent token
          = headerSet caller "Authorization" ("Bearer " ++ token) := by
        simp [buildHeaders, foldl_headerAdd, hua, htok]
      rw [hBH]
      exact headerGet_headerSet _ _ _
    · have hBH : buildHeaders caller userAgent token
          = headerSet (headerAdd caller "User-Agent" userAgent)
              "Authorization" ("Bearer " ++ token) := by
        simp [buildHeaders, foldl_headerAdd, hua, htok]
      rw [hBH]
      exact headerGet_headerSet _ _ _
  · intro hua
    have hmem : ("User-Agent", userAgent)
        ∈ headerAdd caller "User-Agent" userAgent :=
      List.mem_append_right _ (List.mem_singleton_self _)
    by_cases htok : token = ""
    · have hBH : buildHeaders caller userAgent token
          = headerAdd caller "User-Agent" userAgent := by
        simp [buildHeaders, foldl_headerAdd, hua, htok]
      rw [hBH]
      exact hmem
    · have hBH : buildHeaders caller userAgent token
          = headerSet (headerAdd caller "User-Agent" userAgent)
              "Authorization" ("Bearer " ++ token) := by
        simp [buildHeaders, foldl_headerAdd, hua, htok]
      rw [hBH]
      exact List.mem_append_left _ (List.mem_filter.mpr ⟨hmem, rfl⟩)
  · intro hua hnone
    have hcfil : caller.filter (fun p => p.1 == "User-Agent") = [] := by
      unfold headerGet at hnone
      rcases hfil : caller.filter (fun p => p.1 == "User-Agent") with _ | ⟨a, t⟩
      · exact hfil
      · rw [hfil] at hnone
        simp at hnone
    have hget : headerGet (headerAdd caller "User-Agent" userAgent) "User-Agent"
        = some userAgent := by
      unfold headerGet headerAdd
      rw [List.filter_append, hcfil]
      simp
    by_cases htok : token = ""
    · have hBH : buildHeaders caller userAgent token
          = headerAdd caller "User-Agent" userAgent := by
        simp [buildHeaders, foldl_headerAdd, hua, htok]
      rw [hBH]
      exact hget
    · have hBH : buildHeaders caller userAgent token
          = headerSet (headerAdd caller "User-Agent" userAgent)
              "Authorization" ("Bearer " ++ token) := by
        simp [buildHeaders, foldl_headerAdd, hua, htok]
      rw [hBH, headerGet_headerSet_ne _ _ _ _ (by decide)]
      exact hget

/-- C8 witness for the amended claim: an unrelated caller header survives,
the configured token is the effective `Authorization`, and — the caller
providing no `User-Agent` — the configured user-agent is the effective
`User-Agent`. -/
theorem c8_headers_amended_witness :
    ("X-Trace", "1") ∈ buildHeaders [("X-Trace", "1")] "ua" "tok"
      ∧ headerGet (buildHeaders [("X-Trace", "1")] "ua" "tok") "Authorization"
          = some ("Bearer " ++ "tok")
      ∧ ("User-Agent", "ua") ∈ buildHeaders [("X-Trace", "1")] "ua" "tok"
      ∧ headerGet (buildHeaders [("X-Trace", "1")] "ua" "tok") "User-Agent"
          = some "ua" := by
  have h := c8_headers_amended [("X-Trace", "1")] "ua" "tok"
  exact ⟨h.1 _ (List.mem_singleton_self _) (Or.inr (by decide)),
    h.2.1 (by decide), h.2.2.1 (by decide), h.2.2.2 (by decide) rfl⟩

/-- C10: a completed HTTP call yields a `Response` with the exact upstream
status code — 4xx and 5xx included — and no error, so the engine counts it
as success: a transient record whose request returns an error status is
removed (no longer retrievable and never again returned by the due-query),
no failure reason is recorded, and the task reports no error. -/
theorem c10_error_status_is_success (statusCode : Int) (respBody : String)
    (userAgent token method urlStr : String) (headers : Header)
    (uErr lErr : Option String) (store : Store) (req : ScheduledRequest)
    (table : String) (current : Nat) :
    (DoRequest ⟨none, none, none, statusCode, respBody, none⟩ userAgent token
        method urlStr headers).2 = .ok ⟨statusCode, respBody⟩
      ∧ (req.PersistentStore = false →
          execute ⟨none, .ok ⟨statusCode, respBody⟩, uErr, none, lErr⟩ store req table current
              = ⟨(store.map (lockingUpdate req.ID true)).filter (fun r => r.ID != req.ID),
                  [.lockCall req.ID true, .execCall req.ID, .removeCall req.ID], none⟩
          ∧ (execute ⟨none, .ok ⟨statusCode, respBody⟩, uErr, none, lErr⟩
                store req table current).store.find? (fun r => r.ID == req.ID) = none
          ∧ (∀ reason, Event.logFailureCall req.ID reason
              ∉ (execute ⟨none, .ok ⟨statusCode, respBody⟩, uErr, none, lErr⟩
                  store req table current).trace)
          ∧ (∀ (t2 : Nat) (l : List ScheduledRequest) (r : ScheduledRequest),
              FetchSchedRequests none
                  (execute ⟨none, .ok ⟨statusCode, respBody⟩, uErr, none, lErr⟩
                    store req table current).store table t2 = .ok l →
              r ∈ l → r.ID ≠ req.ID)) := by
  refine ⟨rfl, ?_⟩
  intro hp
  have heq : execute ⟨none, .ok ⟨statusCode, respBody⟩, uErr, none, lErr⟩ store req table current
      = ⟨(store.map (lockingUpdate req.ID true)).filter (fun r => r.ID != req.ID),
          [.lockCall req.ID true, .execCall req.ID, .removeCall req.ID], none⟩ := by
    simp [execute, Lock, setLocking, execRequest, removeRequest, hp]
  refine ⟨heq, ?_, ?_, ?_⟩
  · rw [heq]
    exact find?_filter_ne _ _
  · intro reason
    rw [heq]
    simp
  · intro t2 l r hfetch hr
    rw [heq] at hfetch
    have hl : l = ((store.map (lockingUpdate req.ID true)).filter
        (fun r => r.ID != req.ID)).filter (duePred t2) := by
      have := hfetch
      unfold FetchSchedRequests at this
      simpa using this.symm
    subst hl
    have hmem := (List.mem_filter.mp hr).1
    have := (List.mem_filter.mp hmem).2
    simpa using this

/-- C10 witness: one transient due record whose request completes with
status 500 — the call reports no error, the record is removed, and no
failure reason is logged. -/
theorem c10_error_status_is_success_witness :
    (DoRequest ⟨none, none, none, 500, "boom", none⟩ "" "" "GET" "/ping" []).2
        = .ok ⟨500, "boom"⟩
      ∧ (execute ⟨none, .ok ⟨500, "boom"⟩, none, none, none⟩
            [sampleReq] sampleReq "tbl" 20).store.find?
          (fun r => r.ID == sampleReq.ID) = none
      ∧ Event.logFailureCall sampleReq.ID "anything"
          ∉ (execute ⟨none, .ok ⟨500, "boom"⟩, none, none, none⟩
              [sampleReq] sampleReq "tbl" 20).trace := by
  have h := c10_error_status_is_success 500 "boom" "" "" "GET" "/ping" [] none none
    [sampleReq] sampleReq "tbl" 20
  exact ⟨h.1, (h.2 rfl).2.1, (h.2 rfl).2.2.1 "anything"⟩

end Citium
